import Mathlib

/-!
Verification of a minimal document lookup bridge consisting of an in-memory
key-value store for text documents (`MemoryDataStore`) and a pass-through
retrieval adapter (`LLamaIndexRetriever`) that resolves a key to a document
body and forwards that body to an external search index.

The embedding follows the source closely.  Python runtime values that occur
in the program are modelled by the inductive type `PyVal` (the `None`
object, strings, and lists).  The store's dictionary is modelled as an
insertion-ordered association list, since Python dictionaries preserve
insertion order and assignment to an existing key overwrites in place.
The external search capability is an opaque function from a document value
to `Except` (a raised failure, or a returned result).  `retrieve` is
instrumented so that theorems can speak about the value it returns, the
exact sequence of arguments it passes to the external search operation,
and the state of the store after the call.
-/

/-- Python runtime values occurring in this program: the `None` object,
strings (document bodies), and lists (the shape search results take in the
example usage).  Search results are otherwise treated as opaque. -/
inductive PyVal where
  | none : PyVal
  | str : String → PyVal
  | list : List PyVal → PyVal

/-- Python's `document is not None` test: true for every value except the
`None` object. -/
def PyVal.isNotNone : PyVal → Bool
  | PyVal.none => false
  | _ => true

/-- `d[key] = value` on a Python dictionary modelled as an association
list: overwrite in place when the key is present, append otherwise. -/
def dictSet : List (String × PyVal) → String → PyVal → List (String × PyVal)
  | [], key, value => [(key, value)]
  | (k, v) :: rest, key, value =>
    if k = key then (key, value) :: rest else (k, v) :: dictSet rest key value

/-- `d.get(key, None)` on a Python dictionary modelled as an association
list: the first value stored under `key`, or `None` when absent. -/
def dictGet : List (String × PyVal) → String → PyVal
  | [], _ => PyVal.none
  | (k, v) :: rest, key => if k = key then v else dictGet rest key

/-- `MemoryDataStore`: a simple in-memory data store; `self.store` is the
owned dictionary. -/
structure MemoryDataStore where
  store : List (String × PyVal)

/-- `MemoryDataStore.__init__`: the store starts as an empty dictionary. -/
def MemoryDataStore.init : MemoryDataStore := ⟨[]⟩

/-- `add_document(self, key, document)`: executes
`self.store[key] = document`. -/
def MemoryDataStore.add_document (self : MemoryDataStore) (key : String)
    (document : PyVal) : MemoryDataStore :=
  ⟨dictSet self.store key document⟩

/-- `get_document(self, key)`: executes `return self.store.get(key, None)`. -/
def MemoryDataStore.get_document (self : MemoryDataStore) (key : String) : PyVal :=
  dictGet self.store key

/-- The keys currently present in the store's dictionary. -/
def MemoryDataStore.keys (self : MemoryDataStore) : List String :=
  self.store.map Prod.fst

/-- `get_document` viewed as a method call that also reports the state of
the store after the call: the body is a single `return` of
`self.store.get(key, None)` and performs no assignment, so the store that
comes out is the receiver's store. -/
def MemoryDataStore.get_documentCall (self : MemoryDataStore) (key : String) :
    PyVal × MemoryDataStore :=
  (dictGet self.store key, self)

/-- A sequence of `add_document` calls applied to a store, in order. -/
def MemoryDataStore.addAll (self : MemoryDataStore) :
    List (String × PyVal) → MemoryDataStore
  | [] => self
  | (k, d) :: rest => (self.add_document k d).addAll rest

/-- `LLamaIndexRetriever`: holds the external search index capability and
the data store, both supplied at construction.  The external index is
opaque: a function from the document value to either a raised failure
(`Except.error`, with failures drawn from an arbitrary type `ε`) or a
returned result value. -/
structure LLamaIndexRetriever (ε : Type) where
  index : PyVal → Except ε PyVal
  data_store : MemoryDataStore

/-- `retrieve(self, key)`, instrumented.  Follows the source line by line:
`document = self.data_store.get_document(key)`; if `document is not None`
then `result = self.index.search(document)` and `return result`, else
`return None`.  The first component is the call's outcome (`Except.error`
when the external search raises), the second is the list of arguments
passed to the external search operation during the call, and the third is
the state of the store after the call. -/
def LLamaIndexRetriever.retrieveCall {ε : Type} (self : LLamaIndexRetriever ε)
    (key : String) : (Except ε PyVal × List PyVal) × MemoryDataStore :=
  let call := self.data_store.get_documentCall key
  let document := call.1
  let s1 := call.2
  if document.isNotNone then
    ((self.index document, [document]), s1)
  else
    ((Except.ok PyVal.none, []), s1)

/-- The value `retrieve(key)` returns, or the failure it propagates. -/
def LLamaIndexRetriever.retrieve {ε : Type} (self : LLamaIndexRetriever ε)
    (key : String) : Except ε PyVal :=
  (self.retrieveCall key).1.1

/-- The arguments passed to the external search operation during a single
`retrieve(key)` call. -/
def LLamaIndexRetriever.searchCalls {ε : Type} (self : LLamaIndexRetriever ε)
    (key : String) : List PyVal :=
  (self.retrieveCall key).1.2

/-- The concatenated search-call traces of `n` successive `retrieve(key)`
calls.  The adapter holds no mutable state of its own and `retrieve`
leaves the store unchanged, so every successive call starts from the same
state. -/
def LLamaIndexRetriever.retrieveRepeat {ε : Type} (self : LLamaIndexRetriever ε)
    (key : String) : Nat → List PyVal
  | 0 => []
  | n + 1 => self.searchCalls key ++ self.retrieveRepeat key n

/-- A concrete retriever used as a test fixture: the external index wraps
the document it receives in a singleton list, and the store holds the empty
document body under key "doc1". -/
def sampleRetriever : LLamaIndexRetriever Unit :=
  ⟨fun v => Except.ok (PyVal.list [v]),
   MemoryDataStore.init.add_document "doc1" (PyVal.str "")⟩

/-- A concrete retriever whose external index raises on every call,
modelled as `Except.error 7`, over a store holding "doc1". -/
def failingRetriever : LLamaIndexRetriever Nat :=
  ⟨fun _ => Except.error 7,
   MemoryDataStore.init.add_document "doc1" (PyVal.str "X")⟩

/-- A concrete retriever over a store where "doc1" was first bound to "X"
and then overwritten with "Y". -/
def overwrittenRetriever : LLamaIndexRetriever Unit :=
  ⟨fun v => Except.ok (PyVal.list [v]),
   (MemoryDataStore.init.add_document "doc1" (PyVal.str "X")).add_document
     "doc1" (PyVal.str "Y")⟩

/-- Reading a key just written: `dictGet` after `dictSet` at the same key
yields the value written. -/
theorem dictGet_dictSet_self (l : List (String × PyVal)) (k : String) (v : PyVal) :
    dictGet (dictSet l k v) k = v := by
  induction l with
  | nil => simp [dictSet, dictGet]
  | cons hd tl ih =>
    rcases hd with ⟨a, b⟩
    by_cases h : a = k
    · simp [dictSet, dictGet, h]
    · simp [dictSet, dictGet, h, ih]

/-- Reading a different key: `dictSet` at `k` does not disturb `dictGet`
at `k' ≠ k`. -/
theorem dictGet_dictSet_ne (l : List (String × PyVal)) (k k' : String) (v : PyVal)
    (h : k' ≠ k) : dictGet (dictSet l k v) k' = dictGet l k' := by
  have hk : k ≠ k' := fun hk => h hk.symm
  induction l with
  | nil => simp [dictSet, dictGet, hk]
  | cons hd tl ih =>
    rcases hd with ⟨a, b⟩
    by_cases ha : a = k
    · subst ha
      simp [dictSet, dictGet, hk]
    · simp [dictSet, dictGet, ha, ih]

/-- A key absent from the dictionary reads as `None`. -/
theorem dictGet_eq_none_of_not_mem (l : List (String × PyVal)) (k : String)
    (h : k ∉ l.map Prod.fst) : dictGet l k = PyVal.none := by
  induction l with
  | nil => simp [dictGet]
  | cons hd tl ih =>
    rcases hd with ⟨a, b⟩
    simp only [List.map_cons, List.mem_cons] at h
    push_neg at h
    have ha : a ≠ k := fun hk => h.1 hk.symm
    simp [dictGet, ha, ih h.2]

/-- A sequence of inserts all at keys other than `k` does not disturb
`get_document` at `k`. -/
theorem get_document_addAll_ne (s : MemoryDataStore) (ops : List (String × PyVal))
    (k : String) (h : ∀ p ∈ ops, p.1 ≠ k) :
    (s.addAll ops).get_document k = s.get_document k := by
  induction ops generalizing s with
  | nil => rfl
  | cons hd tl ih =>
    rcases hd with ⟨a, b⟩
    have ha : a ≠ k := h (a, b) (List.mem_cons_self _ _)
    have htl : ∀ p ∈ tl, p.1 ≠ k := fun p hp => h p (List.mem_cons_of_mem _ hp)
    calc ((s.add_document a b).addAll tl).get_document k
        = (s.add_document a b).get_document k := ih (s.add_document a b) htl
      _ = s.get_document k := dictGet_dictSet_ne s.store a k b (fun hk => ha hk.symm)

/-- C3: for every key `k` and document `d`, `get_document(k)` evaluated
immediately after `add_document(k, d)` on the same store returns exactly
`d`. -/
theorem get_document_after_add_document (s : MemoryDataStore) (k : String)
    (d : PyVal) : (s.add_document k d).get_document k = d :=
  dictGet_dictSet_self s.store k d

/-- C4: last write wins: `add_document(k, d1)` then `add_document(k, d2)`
then `get_document(k)` returns `d2`; the second insert overwrites the
first. -/
theorem add_document_overwrite_last_write_wins (s : MemoryDataStore)
    (k : String) (d1 d2 : PyVal) :
    ((s.add_document k d1).add_document k d2).get_document k = d2 :=
  dictGet_dictSet_self (s.add_document k d1).store k d2

/-- C5: on a freshly constructed store to which any sequence of inserts at
keys other than `k` has been applied, `get_document(k)` returns the
absence value `None` rather than raising. -/
theorem get_document_never_inserted_eq_none (ops : List (String × PyVal))
    (k : String) (h : ∀ p ∈ ops, p.1 ≠ k) :
    (MemoryDataStore.init.addAll ops).get_document k = PyVal.none := by
  rw [get_document_addAll_ne MemoryDataStore.init ops k h]
  rfl

/-- Witness for C5 at a concrete input: inserting under keys "a" and "b"
leaves `get_document` at the never-inserted key "c" returning `None`. -/
theorem get_document_never_inserted_eq_none_witness :
    (∀ p ∈ [("a", PyVal.str "A"), ("b", PyVal.str "B")], p.1 ≠ "c") ∧
    (MemoryDataStore.init.addAll
      [("a", PyVal.str "A"), ("b", PyVal.str "B")]).get_document "c" = PyVal.none :=
  ⟨by decide, get_document_never_inserted_eq_none
    [("a", PyVal.str "A"), ("b", PyVal.str "B")] "c" (by decide)⟩

/-- C9: frame property of insertion: `add_document(k, d)` leaves
`get_document` at every other key `k'` unchanged. -/
theorem add_document_frame_other_keys (s : MemoryDataStore) (k k' : String)
    (d : PyVal) (h : k' ≠ k) :
    (s.add_document k d).get_document k' = s.get_document k' :=
  dictGet_dictSet_ne s.store k k' d h

/-- Witness for C9 at a concrete input: inserting under "a" does not
change the value read under "b". -/
theorem add_document_frame_other_keys_witness :
    ("b" : String) ≠ "a" ∧
    ((MemoryDataStore.init.add_document "b" (PyVal.str "B")).add_document "a"
      (PyVal.str "A")).get_document "b"
      = (MemoryDataStore.init.add_document "b" (PyVal.str "B")).get_document "b" :=
  ⟨by decide, add_document_frame_other_keys
    (MemoryDataStore.init.add_document "b" (PyVal.str "B")) "a" "b"
    (PyVal.str "A") (by decide)⟩

/-- When the value stored under `k` is the string `d`, a `retrieve(k)` call
passes exactly `PyVal.str d` to the external search, once, returns the
search outcome as its own outcome, and leaves the store as it was. -/
theorem retrieveCall_present {ε : Type} (r : LLamaIndexRetriever ε)
    (k d : String) (hd : r.data_store.get_document k = PyVal.str d) :
    r.retrieveCall k = ((r.index (PyVal.str d), [PyVal.str d]), r.data_store) := by
  have hd' : dictGet r.data_store.store k = PyVal.str d := hd
  simp [LLamaIndexRetriever.retrieveCall, MemoryDataStore.get_documentCall,
    hd', PyVal.isNotNone]

/-- When the lookup under `k` yields `None`, a `retrieve(k)` call returns
`None`, passes nothing to the external search, and leaves the store as it
was. -/
theorem retrieveCall_absent {ε : Type} (r : LLamaIndexRetriever ε)
    (k : String) (hd : r.data_store.get_document k = PyVal.none) :
    r.retrieveCall k = ((Except.ok PyVal.none, []), r.data_store) := by
  have hd' : dictGet r.data_store.store k = PyVal.none := hd
  simp [LLamaIndexRetriever.retrieveCall, MemoryDataStore.get_documentCall,
    hd', PyVal.isNotNone]

/-- C1: for a key `k` stored with document body `d` (any string, the empty
string included), `retrieve(k)` invokes the external search exactly once,
with exactly `d`, and returns the search operation's outcome unmodified. -/
theorem retrieve_present_forwards_body_once {ε : Type}
    (r : LLamaIndexRetriever ε) (k d : String)
    (hd : r.data_store.get_document k = PyVal.str d) :
    r.searchCalls k = [PyVal.str d] ∧ r.retrieve k = r.index (PyVal.str d) := by
  have h := retrieveCall_present r k d hd
  exact ⟨by simp [LLamaIndexRetriever.searchCalls, h],
    by simp [LLamaIndexRetriever.retrieve, h]⟩

/-- Witness for C1 at a concrete input: with the empty string stored under
"doc1", `retrieve` passes exactly the empty string to the external search
once and returns that search's result. -/
theorem retrieve_present_forwards_body_once_witness :
    sampleRetriever.data_store.get_document "doc1" = PyVal.str "" ∧
    (sampleRetriever.searchCalls "doc1" = [PyVal.str ""] ∧
      sampleRetriever.retrieve "doc1" = sampleRetriever.index (PyVal.str "")) :=
  ⟨rfl, retrieve_present_forwards_body_once sampleRetriever "doc1" "" rfl⟩

/-- C2: for a key `k` with no entry in the store, `retrieve(k)` returns the
absence signal `None` (not an error) and never invokes the external
search. -/
theorem retrieve_absent_returns_none_without_search {ε : Type}
    (r : LLamaIndexRetriever ε) (k : String)
    (hk : k ∉ r.data_store.keys) :
    r.retrieve k = Except.ok PyVal.none ∧ r.searchCalls k = [] := by
  have hget : r.data_store.get_document k = PyVal.none :=
    dictGet_eq_none_of_not_mem r.data_store.store k hk
  have h := retrieveCall_absent r k hget
  exact ⟨by simp [LLamaIndexRetriever.retrieve, h],
    by simp [LLamaIndexRetriever.searchCalls, h]⟩

/-- Witness for C2 at a concrete input: on a store holding only "doc1",
`retrieve("missing")` returns `None` and records no search invocation. -/
theorem retrieve_absent_returns_none_without_search_witness :
    "missing" ∉ sampleRetriever.data_store.keys ∧
    (sampleRetriever.retrieve "missing" = Except.ok PyVal.none ∧
      sampleRetriever.searchCalls "missing" = []) :=
  ⟨by decide,
    retrieve_absent_returns_none_without_search sampleRetriever "missing" (by decide)⟩

/-- C6: `retrieve` and `get_document` leave the store's mapping unchanged:
for every retriever state and key, present or absent, the store after the
call equals the store before it. -/
theorem retrieve_and_get_document_leave_store_unchanged {ε : Type}
    (r : LLamaIndexRetriever ε) (k : String) :
    (r.retrieveCall k).2 = r.data_store ∧
    (r.data_store.get_documentCall k).2 = r.data_store := by
  refine ⟨?_, rfl⟩
  simp only [LLamaIndexRetriever.retrieveCall, MemoryDataStore.get_documentCall]
  split <;> rfl

/-- C7: when the external search raises on the stored body, `retrieve`
propagates that exact failure unchanged and the store is unchanged by the
failed call; moreover any failure `retrieve` ever produces is exactly a
failure the external search produced on the looked-up document. -/
theorem retrieve_propagates_search_failure {ε : Type}
    (r : LLamaIndexRetriever ε) (k d : String) (e : ε)
    (hd : r.data_store.get_document k = PyVal.str d)
    (he : r.index (PyVal.str d) = Except.error e) :
    r.retrieve k = Except.error e ∧
    (r.retrieveCall k).2 = r.data_store ∧
    ∀ (q : LLamaIndexRetriever ε) (k' : String) (e' : ε),
      q.retrieve k' = Except.error e' →
      q.index (q.data_store.get_document k') = Except.error e' := by
  have h := retrieveCall_present r k d hd
  refine ⟨by simp [LLamaIndexRetriever.retrieve, h, he], by simp [h], ?_⟩
  intro q k' e' hq
  by_cases hnn : (dictGet q.data_store.store k').isNotNone
  · have hr : q.retrieve k' = q.index (dictGet q.data_store.store k') := by
      simp [LLamaIndexRetriever.retrieve, LLamaIndexRetriever.retrieveCall,
        MemoryDataStore.get_documentCall, hnn]
    simp only [MemoryDataStore.get_document]
    rw [← hr]
    exact hq
  · have hr : q.retrieve k' = Except.ok PyVal.none := by
      simp [LLamaIndexRetriever.retrieve, LLamaIndexRetriever.retrieveCall,
        MemoryDataStore.get_documentCall, hnn]
    rw [hr] at hq
    cases hq

/-- Witness for C7 at a concrete input: an external index that raises
failure `7` on every call makes `retrieve("doc1")` surface exactly that
failure, with the store untouched. -/
theorem retrieve_propagates_search_failure_witness :
    failingRetriever.data_store.get_document "doc1" = PyVal.str "X" ∧
    failingRetriever.index (PyVal.str "X") = Except.error 7 ∧
    failingRetriever.retrieve "doc1" = Except.error 7 ∧
    (failingRetriever.retrieveCall "doc1").2 = failingRetriever.data_store :=
  ⟨rfl, rfl,
    (retrieve_propagates_search_failure failingRetriever "doc1" "X" 7 rfl rfl).1,
    (retrieve_propagates_search_failure failingRetriever "doc1" "X" 7 rfl rfl).2.1⟩

/-- C8: no caching: `n` successive `retrieve(k)` calls for a present key
invoke the external search `n` times, and after `add_document(k, d1)` is
overwritten by `add_document(k, d2)`, `retrieve(k)` forwards `d2` (the
current stored body), not `d1`. -/
theorem retrieve_no_caching {ε : Type} (r : LLamaIndexRetriever ε)
    (k d : String) (n : Nat)
    (hd : r.data_store.get_document k = PyVal.str d) :
    (r.retrieveRepeat k n).length = n ∧
    ∀ (s : MemoryDataStore) (d1 d2 : String),
      (LLamaIndexRetriever.mk r.index
        ((s.add_document k (PyVal.str d1)).add_document k (PyVal.str d2))
        : LLamaIndexRetriever ε).searchCalls k = [PyVal.str d2] := by
  have hsc : r.searchCalls k = [PyVal.str d] := by
    simp [LLamaIndexRetriever.searchCalls, retrieveCall_present r k d hd]
  constructor
  · induction n with
    | zero => rfl
    | succ m ih => simp [LLamaIndexRetriever.retrieveRepeat, hsc, ih]
  · intro s d1 d2
    have hget : ((s.add_document k (PyVal.str d1)).add_document k
        (PyVal.str d2)).get_document k = PyVal.str d2 :=
      dictGet_dictSet_self (s.add_document k (PyVal.str d1)).store k (PyVal.str d2)
    simp [LLamaIndexRetriever.searchCalls,
      retrieveCall_present (LLamaIndexRetriever.mk r.index
        ((s.add_document k (PyVal.str d1)).add_document k (PyVal.str d2)))
        k d2 hget]

/-- Witness for C8 at a concrete input: with "doc1" overwritten from "X"
to "Y", three successive `retrieve` calls invoke the external search three
times, and the body forwarded is "Y". -/
theorem retrieve_no_caching_witness :
    overwrittenRetriever.data_store.get_document "doc1" = PyVal.str "Y" ∧
    (overwrittenRetriever.retrieveRepeat "doc1" 3).length = 3 ∧
    (LLamaIndexRetriever.mk overwrittenRetriever.index
      ((MemoryDataStore.init.add_document "doc1" (PyVal.str "X")).add_document
        "doc1" (PyVal.str "Y")) : LLamaIndexRetriever Unit).searchCalls "doc1"
      = [PyVal.str "Y"] :=
  ⟨rfl,
    (retrieve_no_caching overwrittenRetriever "doc1" "Y" 3 rfl).1,
    (retrieve_no_caching overwrittenRetriever "doc1" "Y" 3 rfl).2
      MemoryDataStore.init "X" "Y"⟩

/-- C10: a document equal to the absence value is indistinguishable from a
missing key: after `add_document(k, None)`, `get_document(k)` returns
`None` and `retrieve(k)` takes the absent branch, returning `None` without
invoking the external search, even though an insert for `k` happened. -/
theorem stored_none_indistinguishable_from_absent {ε : Type}
    (index : PyVal → Except ε PyVal) (s : MemoryDataStore) (k : String) :
    (s.add_document k PyVal.none).get_document k = PyVal.none ∧
    (LLamaIndexRetriever.mk index (s.add_document k PyVal.none)).retrieve k
      = Except.ok PyVal.none ∧
    (LLamaIndexRetriever.mk index (s.add_document k PyVal.none)).searchCalls k
      = [] := by
  have hget : (s.add_document k PyVal.none).get_document k = PyVal.none :=
    dictGet_dictSet_self s.store k PyVal.none
  have h := retrieveCall_absent
    (LLamaIndexRetriever.mk index (s.add_document k PyVal.none)) k hget
  exact ⟨hget, by simp [LLamaIndexRetriever.retrieve, h],
    by simp [LLamaIndexRetriever.searchCalls, h]⟩
